import Mathlib

/-!
Verification of the triz_quiz event-orchestration core.

Shallow embedding of the relevant parts of the repository:
`app/models.py` (records), `app/scoring.py` (scoring engine),
`app/state.py` (phase state machine), `app/hub.py` (display fan-out),
`app/step_types/*.py` (per-mechanic phase counts, hooks, handlers) and
`app/scenario_loader.py` / `app/bot/keyboards.py` where the claims touch them.

Conventions: wall-clock instants are integers (milliseconds); SQLAlchemy
rows become structures held in lists inside one `DB` record; a mutation of
a fetched row becomes a keyed `List.map` update (row keys are unique by the
schema's primary-key / unique constraints); code paths that would raise an
unhandled exception return `Option.none`; Python floats are modelled by
exact rationals `ℚ` (for every concrete input evaluated below the binary
floating-point result and the rational result coincide).
-/

namespace TrizQuiz

/-- `app/models.py` `User`: registered attendee with cumulative score and
latency counters. -/
structure User where
  id : String
  name : String
  joined_at : Int
  total_score : Int
  total_answer_ms : Int
  open_answer_ms : Int
  open_answer_count : Nat
  quiz_answer_ms : Int
  quiz_answer_count : Nat
deriving DecidableEq

/-- `app/models.py` `Step`. `correct_multi` is stored in the source as a
comma-joined string and parsed with `split(",")`/`isdigit` at each use; it
is embedded already parsed as the list of digit tokens (`none` models both
SQL NULL and the empty string, the two falsy cases of `not step.correct_multi`). -/
structure Step where
  id : Nat
  order_index : Int
  type : String
  title : String
  correct_index : Option Int
  points_correct : Option Int
  correct_multi : Option (List Nat)
  timer_ms : Option Int
deriving DecidableEq

/-- `app/models.py` `StepOption`: indexed option of a step
(unique `(step_id, idx)`). -/
structure StepOption where
  step_id : Nat
  idx : Nat
  text : String
deriving DecidableEq

/-- `app/models.py` `Idea`: open-answer submission
(unique `(step_id, user_id)`). -/
structure Idea where
  id : Nat
  step_id : Nat
  user_id : String
  text : String
  submitted_at : Int
deriving DecidableEq

/-- `app/models.py` `IdeaVote` (unique `(step_id, idea_id, voter_id)`). -/
structure IdeaVote where
  step_id : Nat
  idea_id : Nat
  voter_id : String
  created_at : Int
deriving DecidableEq

/-- `app/models.py` `McqAnswer` (unique `(step_id, user_id)`). -/
structure McqAnswer where
  step_id : Nat
  user_id : String
  choice_idx : Int
  answered_at : Int
deriving DecidableEq

/-- `app/models.py` `MultiAnswer`; `choice_idxs` is stored comma-joined and
parsed at each use, embedded as the parsed digit list. -/
structure MultiAnswer where
  step_id : Nat
  user_id : String
  choice_idxs : List Nat
  answered_at : Int
deriving DecidableEq

/-- `app/models.py` `SequenceAnswer`; `order_json` embedded parsed. -/
structure SequenceAnswer where
  step_id : Nat
  user_id : String
  order_json : List Nat
  answered_at : Int
deriving DecidableEq

/-- `app/models.py` `GlobalState`: the singleton event position. -/
structure GlobalState where
  current_step_id : Nat
  step_started_at : Int
  phase_started_at : Int
  phase : Nat
deriving DecidableEq

/-- The persistent store as seen through one SQLAlchemy session. -/
structure DB where
  steps : List Step
  users : List User
  mcq_answers : List McqAnswer
  multi_answers : List MultiAnswer
  ideas : List Idea
  idea_votes : List IdeaVote
  sequence_answers : List SequenceAnswer
  step_options : List StepOption
  gs : GlobalState
deriving DecidableEq

/-- `session.get(User, uid)` followed by an attribute read. -/
def userScore (db : DB) (uid : String) : Option Int :=
  (db.users.find? (fun u => u.id == uid)).map (fun u => u.total_score)


/-- Insertion sort used to embed SQL `ORDER BY` clauses. -/
def insertionSortBy (le : α → α → Bool) : List α → List α
  | [] => []
  | x :: xs => insertLe le x (insertionSortBy le xs)
where insertLe (le : α → α → Bool) (x : α) : List α → List α
  | [] => [x]
  | y :: ys => if le x y then x :: y :: ys else y :: insertLe le x ys

/-! ## Scoring engine — `app/scoring.py` -/

/-- `scoring.add_vote_points`: +1 to the author of each idea of the open
step per vote it received (SQL inner join of `Idea` and `IdeaVote` on
`idea_id`, both restricted to the step, grouped by `Idea.user_id`; adding a
zero count equals the join producing no row for that author). -/
def add_vote_points (db : DB) (open_step_id : Nat) : DB :=
  let votesFor (uid : String) : Nat :=
    (db.idea_votes.filter (fun v =>
      v.step_id == open_step_id &&
      db.ideas.any (fun i =>
        i.id == v.idea_id && i.step_id == open_step_id && i.user_id == uid))).length
  { db with users := db.users.map (fun u =>
      { u with total_score := u.total_score + (votesFor u.id : Int) }) }

/-- `scoring.add_mcq_points`: guard `points_correct is None or correct_index
is None`, then `+= points_correct` once per join row of `User` with a
matching `McqAnswer` (at most one per user by the unique constraint; the
join multiplicity is kept as a multiplication by the row count). -/
def add_mcq_points (db : DB) (mcq_step : Step) : DB :=
  match mcq_step.points_correct, mcq_step.correct_index with
  | some pts, some ci =>
      let rows (uid : String) : Nat :=
        (db.mcq_answers.filter (fun a =>
          a.step_id == mcq_step.id && a.user_id == uid && a.choice_idx == ci)).length
      { db with users := db.users.map (fun u =>
          { u with total_score := u.total_score + pts * (rows u.id : Int) }) }
  | _, _ => db

/-- Award of one `MultiAnswer` row inside `scoring.add_multi_points`:
`chosen` must be a non-empty subset of the correct set, then
`int(share * len(chosen))` is added, where `share` is the float
`points_correct / len(correct_set)`. In exact arithmetic
`share * len(chosen) = points_correct * len(chosen) / len(correct_set)`
and `int()` truncates toward zero, which is the integer `tdiv` below (for
every input evaluated in this file the binary float computation and the
exact one agree). The source's `if points:` guard only skips adding a
zero, which is the same as adding it. -/
def multiAward (pts : Int) (cset : Finset Nat) (ans : MultiAnswer) : Int :=
  let chosen := ans.choice_idxs.toFinset
  if chosen ≠ ∅ ∧ chosen ⊆ cset then
    (pts * (chosen.card : Int)).tdiv (cset.card : Int)
  else 0

/-- `scoring.add_multi_points`: guards `not step.correct_multi`,
`points_correct is None`, empty parsed correct set; then one update per
`MultiAnswer` row of the step (`session.get(User, ...)` becomes the keyed
map; a missing user updates nothing in both). -/
def add_multi_points (db : DB) (step : Step) : DB :=
  match step.correct_multi, step.points_correct with
  | some cm, some pts =>
      let cset := cm.toFinset
      if cset = ∅ then db
      else
        let answers := db.multi_answers.filter (fun a => a.step_id == step.id)
        { db with users := answers.foldl (fun us ans =>
            us.map (fun u =>
              if u.id == ans.user_id then
                { u with total_score := u.total_score + multiAward pts cset ans }
              else u)) db.users }
  | _, _ => db

/-- `scoring.add_sequence_points`: guard `points_correct is None`;
`correct_order` is the step's option indexes ordered ascending; each
`(User, SequenceAnswer)` join row whose parsed order equals it (the
source's separate length test is implied by list equality and kept) is
awarded the full value. -/
def add_sequence_points (db : DB) (seq_step : Step) : DB :=
  match seq_step.points_correct with
  | some pts =>
      let correct_order : List Nat :=
        insertionSortBy (fun a b => a ≤ b)
          ((db.step_options.filter (fun o => o.step_id == seq_step.id)).map
            (fun o => o.idx))
      let rows := db.sequence_answers.filter (fun a => a.step_id == seq_step.id)
      let users := rows.foldl
        (fun us ans =>
          us.map (fun u =>
            if u.id == ans.user_id &&
               ans.order_json.length == correct_order.length &&
               ans.order_json == correct_order then
              { u with total_score := u.total_score + pts }
            else u))
        db.users
      { db with users := users }
  | none => db

/-! ## Step-type registry — `app/step_types/` -/

/-- The mechanic tags actually present in `STEP_TYPES` at runtime: the
package `__init__` imports `registration, open_step, quiz, leaderboard,
multi` (the `sequence` module registers itself on import but is never
imported anywhere in the repository). -/
def registeredTypes : List String := ["registration", "open", "quiz", "leaderboard", "multi"]

/-- `open_step.open_phases`: live count of the step's ideas, 3 phases when
any exist else 2. -/
def open_phases (db : DB) (step : Step) : Nat :=
  if (db.ideas.filter (fun i => i.step_id == step.id)).length != 0 then 3 else 2

/-- The registry's `total_phases` per mechanic (`registration_phases`,
`quiz_phases`, `leaderboard_phases`, `multi_phases` are the constants of
their modules; `open` delegates to `open_phases`). Only meaningful for
tags in `registeredTypes`; callers supply their own default otherwise. -/
def stepTotalPhases (db : DB) (step : Step) : Nat :=
  match step.type with
  | "registration" => 1
  | "open" => open_phases db step
  | "quiz" => 2
  | "leaderboard" => 1
  | "multi" => 2
  | _ => 1

/-- The registry's `on_enter_phase` dispatch: `quiz_on_enter` scores at
phase 1, `multi_on_enter` at phase 1, `open_on_enter` at phase 2;
registration and leaderboard install no hook. -/
def on_enter_phase (db : DB) (step : Step) (phase : Nat) : DB :=
  match step.type with
  | "quiz" => if phase == 1 then add_mcq_points db step else db
  | "multi" => if phase == 1 then add_multi_points db step else db
  | "open" => if phase == 2 then add_vote_points db step.id else db
  | _ => db

/-! ## Phase state machine — `app/state.py` -/

/-- `session.get(Step, id)`. -/
def findStepById (db : DB) (sid : Nat) : Option Step :=
  db.steps.find? (fun s => s.id == sid)

/-- `session.scalar(select(Step).where(Step.order_index == k))`: first
matching row. -/
def findStepByOrder (db : DB) (k : Int) : Option Step :=
  db.steps.find? (fun s => s.order_index == k)

/-- `state.move_to_block`: switch the global state to the step at
`target_order_index` (silently a no-op when none exists), resetting both
timestamps to now; with `to_last_phase` the phase is `max 0 (phases - 1)`
where `phases` comes from a live `total_phases` call on the target (0 when
the target's type has no registered handler), else phase 0. -/
def move_to_block (db : DB) (now : Int) (target_order_index : Int)
    (to_last_phase : Bool) : DB :=
  match findStepByOrder db target_order_index with
  | none => db
  | some target =>
      let phase :=
        if to_last_phase then
          if registeredTypes.contains target.type then
            max 0 (stepTotalPhases db target - 1)
          else 0
        else 0
      { db with gs := { current_step_id := target.id, step_started_at := now,
                        phase_started_at := now, phase := phase } }

/-- `state.advance`: the sole moderator transition. `none` models the
unhandled `AttributeError` the source would raise when
`gs.current_step_id` resolves to no step. Forward inside the step bumps
the phase, resets the phase timestamp and fires `on_enter_phase` with the
new phase; at the last phase it moves to the next block at phase 0 (no
hook). Backward inside the step only decrements the phase; at phase 0 it
moves to the previous block at that block's last phase. -/
def advance (db : DB) (forward : Bool) (now : Int) : Option DB :=
  match findStepById db db.gs.current_step_id with
  | none => none
  | some step =>
      let total_phases :=
        if registeredTypes.contains step.type then stepTotalPhases db step else 1
      if forward then
        if db.gs.phase + 1 < total_phases then
          let db1 := { db with gs :=
            { db.gs with phase := db.gs.phase + 1, phase_started_at := now } }
          some (on_enter_phase db1 step db1.gs.phase)
        else
          some (move_to_block db now (step.order_index + 1) false)
      else
        if db.gs.phase > 0 then
          some { db with gs :=
            { db.gs with phase := db.gs.phase - 1, phase_started_at := now } }
        else
          some (move_to_block db now (step.order_index - 1) true)

/-! ## Quiz answer handler — `app/step_types/quiz.py` `quiz_on_callback`
(the state-mutating part; Telegram acknowledgements become the reply tag,
keyboard refresh and display broadcast carry no persistent state). -/

inductive QuizReply where
  | notAnswerPhase
  | answerUnchanged
  | answerSaved
deriving DecidableEq

/-- The `(step_id, user_id)` lookup key of the `mcq_answers` unique
constraint. -/
def mcqKey (stepId : Nat) (uid : String) (a : McqAnswer) : Bool :=
  a.step_id == stepId && a.user_id == uid

/-- `scalar_one_or_none` over the unique `(step_id, user_id)` key. -/
def findMcqAnswer (db : DB) (stepId : Nat) (uid : String) : Option McqAnswer :=
  db.mcq_answers.find? (mcqKey stepId uid)

/-- The in-place overwrite of the fetched `McqAnswer` row
(`existing.choice_idx = ...; existing.answered_at = ...`), expressed as a
keyed update — the unique constraint makes at most one row match. -/
def updateMcqRow (stepId : Nat) (uid : String) (c t : Int)
    (l : List McqAnswer) : List McqAnswer :=
  l.map (fun r =>
    if mcqKey stepId uid r then { r with choice_idx := c, answered_at := t } else r)

/-- The primary-key lookup of a `User` row. -/
def userKey (uid : String) (u : User) : Bool := u.id == uid

/-- The latency-counter mutation of the fetched `User` row: both cumulative
counters shift by the same `d`, the per-mechanic answer count by `k`. -/
def updateUserLatency (uid : String) (d : Int) (k : Nat) (l : List User) : List User :=
  l.map (fun u =>
    if userKey uid u then
      { u with total_answer_ms := u.total_answer_ms + d,
               quiz_answer_ms := u.quiz_answer_ms + d,
               quiz_answer_count := u.quiz_answer_count + k }
    else u)

/-- `quiz_on_callback`: rejected outside phase 0; a repeat of the recorded
choice answers "unchanged" and returns before any write; otherwise the
existing row is overwritten in place (keyed map update) with the latency
counters shifted by `delta_ms - old_delta` (`delta_ms` clamped at 0,
`old_delta` not), or a new row is appended adding `delta_ms` and bumping
the count. -/
def quiz_on_callback (db : DB) (uid : String) (step : Step) (choice_idx : Int)
    (now : Int) : DB × QuizReply :=
  if db.gs.phase != 0 then (db, .notAnswerPhase)
  else
    let delta_ms : Int := max 0 (now - db.gs.step_started_at)
    match findMcqAnswer db step.id uid with
    | some existing =>
        if existing.choice_idx == choice_idx then (db, .answerUnchanged)
        else
          let old_delta : Int := existing.answered_at - db.gs.step_started_at
          let answers := updateMcqRow step.id uid choice_idx now db.mcq_answers
          let users := updateUserLatency uid (delta_ms - old_delta) 0 db.users
          ({ db with mcq_answers := answers, users := users }, .answerSaved)
    | none =>
        let answers := db.mcq_answers ++
          [{ step_id := step.id, user_id := uid, choice_idx := choice_idx,
             answered_at := now }]
        let users := updateUserLatency uid delta_ms 1 db.users
        ({ db with mcq_answers := answers, users := users }, .answerSaved)

/-! ## Open-answer vote handler and keyboard —
`app/step_types/open_step.py` `open_on_callback`, `app/bot/keyboards.py`
`idea_vote_kb`. -/

inductive VoteReply where
  | notVotePhase
  | voteRemoved
  | voteCounted
deriving DecidableEq

/-- `open_on_callback`: rejected outside phase 1; an existing
`(step, idea, voter)` vote is deleted (toggle off; the filter removes the
single row the unique constraint allows), otherwise a vote row is inserted
— with no check of the idea's author. -/
def open_on_callback (db : DB) (uid : String) (step : Step) (idea_id : Nat)
    (now : Int) : DB × VoteReply :=
  if db.gs.phase != 1 then (db, .notVotePhase)
  else
    let key := fun (v : IdeaVote) =>
      v.step_id == step.id && v.idea_id == idea_id && v.voter_id == uid
    match db.idea_votes.find? key with
    | some _ =>
        ({ db with idea_votes := db.idea_votes.filter (fun v => !(key v)) },
         .voteRemoved)
    | none =>
        ({ db with idea_votes := db.idea_votes ++
            [{ step_id := step.id, idea_id := idea_id, voter_id := uid,
               created_at := now }] },
         .voteCounted)

/-- `idea_vote_kb`: the step's ideas ordered by `submitted_at` ascending,
skipping every idea authored by the voter; the returned list is the ideas
that get a vote button (the source returns `None` instead of an empty
keyboard, and the voted-prefix only changes the label). -/
def idea_vote_kb_ideas (db : DB) (open_step : Step) (voter : String) : List Idea :=
  (insertionSortBy (fun a b => a.submitted_at ≤ b.submitted_at)
    (db.ideas.filter (fun i => i.step_id == open_step.id))).filter
    (fun i => i.user_id != voter)

/-! ## Display fan-out — `app/hub.py` -/

/-- `Hub`: the set of live display WebSocket connections (connections are
abstract ids; a Python set holds no duplicates and the claims below are
stated via membership, which a duplicate would not change). -/
structure Hub where
  active : List Nat
deriving DecidableEq

/-- `Hub.disconnect`: `set.discard`. -/
def Hub.disconnect (h : Hub) (ws : Nat) : Hub :=
  { active := h.active.filter (fun c => c != ws) }

/-- `Hub.broadcast`: iterate the connections, `send_json` each —
`sendFails c = true` models `await ws.send_json(payload)` raising — collect
the failures in `dead`, then disconnect each of them. Returns the sends
that completed (connection, payload) and the hub afterwards; the function
is total: a failing send is caught, never propagated. -/
def Hub.broadcast (h : Hub) (sendFails : Nat → Bool) (payload : α) :
    List (Nat × α) × Hub :=
  let dead := h.active.filter sendFails
  let delivered := (h.active.filter (fun c => !sendFails c)).map (fun c => (c, payload))
  (delivered, dead.foldl (fun hub w => hub.disconnect w) h)

/-! ## Random shuffles — `random.Random` uses

The CPython Mersenne–Twister stream is replaced by a linear congruential
stream; every property proved below depends only on (a) the shuffle being a
deterministic function of the generator's seed and (b) `random.Random()`
taking its seed from OS entropy while `random.Random(n)` ignores entropy,
never on the particular permutations produced. -/

/-- One LCG step standing in for the source's pseudo-random generator. -/
def lcg (s : Nat) : Nat := (1103515245 * s + 12345) % 4294967296

/-- Draw of `_randbelow(n)`: a value in `[0, n)` plus the new state. -/
def randBelow (s n : Nat) : Nat × Nat :=
  let s1 := lcg s
  (s1 % n, s1)

/-- In-place swap of two positions, as `x[i], x[j] = x[j], x[i]`. -/
def listSwap (l : List α) (i j : Nat) : List α :=
  match l[i]?, l[j]? with
  | some a, some b => (l.set i b).set j a
  | _, _ => l

/-- The Fisher–Yates loop of `Random.shuffle`:
`for i in reversed(range(1, len(x))): j = randbelow(i + 1); swap i j`.
The fuel argument is the current `i`. -/
def shuffleAux (s : Nat) (l : List α) : Nat → List α
  | 0 => l
  | i + 1 =>
      let (j, s1) := randBelow s (i + 2)
      shuffleAux s1 (listSwap l (i + 1) j) i

/-- `rng.shuffle(l)` for an `rng` whose state is `seed`. -/
def pythonShuffle (seed : Nat) (l : List α) : List α :=
  shuffleAux seed l (l.length - 1)

/-- `random.Random(seed?)`: a seeded generator is a function of its seed
alone; the unseeded form draws its state from OS entropy, an input the
program does not control. -/
def pythonRandomSeed : Option Nat → Nat → Nat
  | some s, _ => s
  | none, entropy => entropy

/-! ## Multi ingestion — `app/step_types/multi.py` `multi_load_item`
(explicit-correct branch, the one that shuffles). -/

/-- The `seen`-set dedup loop of `multi_load_item`: append each pair whose
text was not seen yet, remembering it. -/
def dedupSeen (seen : List String) : List (String × Bool) → List (String × Bool)
  | [] => []
  | (t, b) :: rest =>
      if seen.contains t then dedupSeen seen rest
      else (t, b) :: dedupSeen (t :: seen) rest

/-- Lines 66–75 of `multi_load_item`: the wrong options come from the
explicit wrong keys, or failing those, from the generic `options` minus the
explicit correct ones. -/
def multiWrongSources (wrong fallback explicit_correct : List String) : List String :=
  if wrong.isEmpty && !fallback.isEmpty then
    fallback.filter (fun o => !explicit_correct.contains o)
  else wrong

/-- Lines 76–94: correct options flagged `true`, then wrong, then fallback,
deduplicated; an empty result falls back to the correct list. -/
def multiCombined (explicit_correct wrong fallback : List String) :
    List (String × Bool) :=
  let combined := dedupSeen []
    (explicit_correct.map (fun t => (t, true)) ++
     (multiWrongSources wrong fallback explicit_correct).map (fun t => (t, false)) ++
     fallback.map (fun t => (t, false)))
  if combined.isEmpty then explicit_correct.map (fun t => (t, true)) else combined

/-- Lines 95–99 of `multi_load_item`: `rng = random.Random()` —
**unseeded**, so the shuffle consumes OS entropy — then
`rng.shuffle(combined)`; the persisted option order is the shuffled texts. -/
def multiIngestOptions (entropy : Nat)
    (explicit_correct wrong fallback : List String) : List String :=
  (pythonShuffle (pythonRandomSeed none entropy)
    (multiCombined explicit_correct wrong fallback)).map (fun p => p.1)

/-! ## Preview loader — `app/scenario_loader.py` `load_preview_steps`
(quiz branch, lines 173–201). -/

/-- Lines 176–186: pair each option with whether its original index is the
parsed correct index (`idx == correct_index` is `False` against `None`),
then shuffle with `random.Random(order + 1)` — seeded by the step's
position, ignoring entropy. -/
def previewQuizCombined (entropy : Nat) (opts : List String)
    (correct_index : Option Int) (order : Nat) : List (String × Bool) :=
  let combined := (List.range opts.length).zipWith
    (fun i t => (t, match correct_index with
                    | some c => (i : Int) == c
                    | none => false)) opts
  pythonShuffle (pythonRandomSeed (some (order + 1)) entropy) combined

/-! ## Sequence render shuffle — `app/step_types/sequence.py`
`sequence_bot_prompts` (lines 67–79) and `sequence_on_callback`
(lines 151–162): both read the step's options ordered by `idx` and shuffle
them with `rng = random.Random(step.id)`. -/

/-- The `(idx, text)` option pairs of a step ordered by `idx`. -/
def stepOptionPairs (db : DB) (step : Step) : List (Nat × String) :=
  insertionSortBy (fun a b => a.1 ≤ b.1)
    ((db.step_options.filter (fun o => o.step_id == step.id)).map
      (fun o => (o.idx, o.text)))

/-- The shuffled options as computed inside `sequence_bot_prompts`. -/
def seqPromptOptions (entropy : Nat) (db : DB) (step : Step) : List (Nat × String) :=
  pythonShuffle (pythonRandomSeed (some step.id) entropy) (stepOptionPairs db step)

/-- The shuffled options as computed inside `sequence_on_callback`. -/
def seqCallbackOptions (entropy : Nat) (db : DB) (step : Step) : List (Nat × String) :=
  pythonShuffle (pythonRandomSeed (some step.id) entropy) (stepOptionPairs db step)

/-! ## Derived observations and concrete scenarios used in the theorems -/

/-- Folding a list of `(choice_idx, now)` submissions of one participant
through `quiz_on_callback`, keeping the persistent state. -/
def quizSubmitSeq (db : DB) (uid : String) (step : Step)
    (edits : List (Int × Int)) : DB :=
  edits.foldl (fun d e => (quiz_on_callback d uid step e.1 e.2).1) db

/-- Number of living `McqAnswer` rows for one `(step, participant)` pair. -/
def mcqCount (db : DB) (stepId : Nat) (uid : String) : Nat :=
  (db.mcq_answers.filter (mcqKey stepId uid)).length

/-- A participant's cumulative latency counters
`(total_answer_ms, quiz_answer_ms)`. -/
def userMs (db : DB) (uid : String) : Option (Int × Int) :=
  (db.users.find? (userKey uid)).map
    (fun u => (u.total_answer_ms, u.quiz_answer_ms))

/-- Whether some recorded vote endorses an idea authored by the voter. -/
def selfVoteExists (db : DB) : Bool :=
  db.idea_votes.any (fun v => db.ideas.any (fun i =>
    i.id == v.idea_id && i.step_id == v.step_id && i.user_id == v.voter_id))

/-- A fresh participant with every counter at zero. -/
def mkUser (uid : String) : User :=
  { id := uid, name := uid, joined_at := 0, total_score := 0, total_answer_ms := 0,
    open_answer_ms := 0, open_answer_count := 0, quiz_answer_ms := 0,
    quiz_answer_count := 0 }

/-- The single-choice step of the spec's reveal-idempotency scenario:
correct index 1, configured point value `p`. -/
def C1step (p : Int) : Step :=
  { id := 1, order_index := 0, type := "quiz", title := "q", correct_index := some 1,
    points_correct := some p, correct_multi := none, timer_ms := none }

/-- One participant `"u"` whose recorded choice equals the correct index,
event positioned at the step's answer phase. -/
def C1db (p : Int) : DB :=
  { steps := [C1step p], users := [mkUser "u"],
    mcq_answers := [{ step_id := 1, user_id := "u", choice_idx := 1, answered_at := 50 }],
    multi_answers := [], ideas := [], idea_votes := [], sequence_answers := [],
    step_options := [],
    gs := { current_step_id := 1, step_started_at := 0, phase_started_at := 0,
            phase := 0 } }

/-- First entry of the reveal phase: one forward transition. -/
def C1afterOnce (p : Int) : Option DB := advance (C1db p) true 100

/-- Second entry of the reveal phase: retreat one phase, advance again. -/
def C1afterTwice (p : Int) : Option DB :=
  ((C1afterOnce p).bind (fun d => advance d false 200)).bind
    (fun d => advance d true 300)

/-- An open step whose voting phase is live. -/
def C2step : Step :=
  { id := 5, order_index := 1, type := "open", title := "o", correct_index := none,
    points_correct := none, correct_multi := none, timer_ms := none }

/-- Participant `"a"` authored idea 7 of the open step; participant `"b"`
authored idea 8; the event sits at the voting phase. -/
def C2db : DB :=
  { steps := [C2step], users := [mkUser "a", mkUser "b"], mcq_answers := [],
    multi_answers := [],
    ideas := [{ id := 7, step_id := 5, user_id := "a", text := "i7", submitted_at := 10 },
              { id := 8, step_id := 5, user_id := "b", text := "i8", submitted_at := 20 }],
    idea_votes := [], sequence_answers := [], step_options := [],
    gs := { current_step_id := 5, step_started_at := 0, phase_started_at := 0,
            phase := 1 } }

/-- A multi-choice step configured with point value `pts` and correct index
list `correct`. -/
def multiStep (pts : Int) (correct : List Nat) : Step :=
  { id := 1, order_index := 0, type := "multi", title := "m", correct_index := none,
    points_correct := some pts, correct_multi := some correct, timer_ms := none }

/-- One participant `"u"` with selection `chosen` recorded for the
multi-choice step. -/
def multiDB (pts : Int) (correct chosen : List Nat) : DB :=
  { steps := [multiStep pts correct], users := [mkUser "u"], mcq_answers := [],
    multi_answers := [{ step_id := 1, user_id := "u", choice_idxs := chosen,
                        answered_at := 0 }],
    ideas := [], idea_votes := [], sequence_answers := [], step_options := [],
    gs := { current_step_id := 1, step_started_at := 0, phase_started_at := 0,
            phase := 1 } }

/-- An open step at order position 0. -/
def C7open : Step :=
  { id := 2, order_index := 0, type := "open", title := "o", correct_index := none,
    points_correct := none, correct_multi := none, timer_ms := none }

/-- A quiz step at order position 1. -/
def C7quiz : Step :=
  { id := 3, order_index := 1, type := "quiz", title := "q", correct_index := some 0,
    points_correct := some 1, correct_multi := none, timer_ms := none }

/-- Two steps: the open step (order 0) with one submission, followed by the
quiz step (order 1) whose phase 0 the moderator is retreating from. -/
def C7db : DB :=
  { steps := [C7open, C7quiz],
    users := [mkUser "u"], mcq_answers := [], multi_answers := [],
    ideas := [{ id := 1, step_id := 2, user_id := "u", text := "i", submitted_at := 5 }],
    idea_votes := [], sequence_answers := [], step_options := [],
    gs := { current_step_id := 3, step_started_at := 40, phase_started_at := 40,
            phase := 0 } }

/-- A quiz step at its answer phase with no answer recorded yet for
participant `"u"`. -/
def C6db : DB :=
  { steps := [C1step 10], users := [mkUser "u"], mcq_answers := [],
    multi_answers := [], ideas := [], idea_votes := [], sequence_answers := [],
    step_options := [],
    gs := { current_step_id := 1, step_started_at := 100, phase_started_at := 100,
            phase := 0 } }

/-! ## Theorems -/

/-- C1, counterexample. In the spec's own scenario (single-choice step,
point value 10, participant's recorded choice equals the correct index)
entering the reveal phase twice — advance, retreat one phase, advance
again — leaves the participant at 20 points, not at most 10: `advance`
re-fires `quiz_on_enter` on the repeated entry and `add_mcq_points` adds
the award again instead of recomputing idempotently. -/
theorem mcq_rescoring_not_idempotent_cex :
    (C1afterTwice 10).bind (fun d => userScore d "u") = some 20 ∧
    ¬ (C1afterTwice 10).bind (fun d => userScore d "u") = some 10 := by
  decide

/-- C1, amended: scoring of the reveal phase is additive per entry, not
idempotent — for every configured point value `p`, the correct participant
holds `p` points after the first entry of the reveal phase and `2 * p`
after entering it a second time via retreat-and-advance. -/
theorem mcq_rescoring_additive (p : Int) :
    (C1afterOnce p).bind (fun d => userScore d "u") = some p ∧
    (C1afterTwice p).bind (fun d => userScore d "u") = some (2 * p) := by
  constructor
  · simp [C1afterOnce, C1db, C1step, advance, findStepById, registeredTypes,
      stepTotalPhases, on_enter_phase, add_mcq_points, userScore, mkUser,
      move_to_block, findStepByOrder]
  · simp [C1afterTwice, C1afterOnce, C1db, C1step, advance, findStepById,
      registeredTypes, stepTotalPhases, on_enter_phase, add_mcq_points, userScore,
      mkUser, move_to_block, findStepByOrder]
    ring

/-- C2, counterexample. Processing a vote whose payload names the voter's
own idea does create the `IdeaVote` row: `open_on_callback` checks the
phase and the `(step, idea, voter)` uniqueness but never the idea's
author, so the reachable state after this call contains a vote whose voter
equals the endorsed idea's author. -/
theorem self_vote_recorded_cex :
    selfVoteExists (open_on_callback C2db "a" C2step 7 99).1 = true ∧
    (open_on_callback C2db "a" C2step 7 99).2 = VoteReply.voteCounted := by
  decide

/-- C2, amended: self-voting is prevented only at the keyboard level —
`idea_vote_kb` never offers a voter any idea they authored, so no
self-vote button exists; the callback handler itself performs no author
check. -/
theorem idea_vote_kb_excludes_own_ideas (db : DB) (open_step : Step)
    (voter : String) (i : Idea) (hi : i ∈ idea_vote_kb_ideas db open_step voter) :
    i.user_id ≠ voter := by
  unfold idea_vote_kb_ideas at hi
  have := (List.mem_filter.mp hi).2
  simpa using this

/-- Witness for `idea_vote_kb_excludes_own_ideas` at a concrete state:
idea 8 (authored by `"b"`) is offered to voter `"a"` and its author is not
`"a"`. -/
theorem idea_vote_kb_excludes_own_ideas_witness :
    ({ id := 8, step_id := 5, user_id := "b", text := "i8",
       submitted_at := 20 } : Idea).user_id ≠ "a" :=
  idea_vote_kb_excludes_own_ideas C2db C2step "a" _ (by decide)

/-- C3, counterexample. The scenario-ingestion shuffle of multi options
(`multi_load_item`) constructs `random.Random()` without a seed, so the
persisted option order depends on OS entropy: two ingestions of the very
same scenario entry at the same position can produce different orders. -/
theorem multi_ingest_shuffle_not_deterministic_cex :
    multiIngestOptions 0 ["a"] ["b", "c"] [] ≠
    multiIngestOptions 1 ["a"] ["b", "c"] [] := by
  decide

/-- C3, amended: the deterministic seeding is elsewhere — the preview
loader shuffles quiz options with `random.Random(order + 1)`, a seed
derived from the step's position, so its output is independent of RNG
entropy; and the sequence mechanic's render-time shuffle is seeded with
the step's id, so `sequence_bot_prompts` and `sequence_on_callback`
compute the same order for the same step on every invocation. The
DB-persisting ingestion shuffle of multi options remains unseeded and
non-deterministic. -/
theorem seeded_shuffles_stable :
    (∀ (e1 e2 : Nat) (opts : List String) (ci : Option Int) (order : Nat),
      previewQuizCombined e1 opts ci order = previewQuizCombined e2 opts ci order) ∧
    (∀ (e1 e2 : Nat) (db : DB) (step : Step),
      seqPromptOptions e1 db step = seqCallbackOptions e2 db step) := by
  exact ⟨fun _ _ _ _ _ => rfl, fun _ _ _ _ => rfl⟩

/-- C4. `open_phases` answers 2 exactly when the step has no recorded
ideas and 3 when it has at least one, and it is recomputed from the live
idea rows: adding a submission for the step makes the next query answer 3,
whatever was answered before. -/
theorem open_phase_count_dynamic (db : DB) (step : Step) :
    (db.ideas.filter (fun i => i.step_id == step.id) = [] →
      open_phases db step = 2) ∧
    (db.ideas.filter (fun i => i.step_id == step.id) ≠ [] →
      open_phases db step = 3) ∧
    (∀ i : Idea, i.step_id = step.id →
      open_phases { db with ideas := db.ideas ++ [i] } step = 3) := by
  refine ⟨fun h => ?_, fun h => ?_, fun i hi => ?_⟩
  · simp [open_phases, h]
  · have hlen : ¬(db.ideas.filter (fun i => i.step_id == step.id)).length = 0 :=
      fun hl => h (List.length_eq_zero.mp hl)
    simp only [open_phases, bne_iff_ne, ne_eq]
    rw [if_pos hlen]
  · simp [open_phases, List.filter_append, hi]

/-- Witness for `open_phase_count_dynamic`: with no ideas the phase count
is 2; after one submission for the step exists it is 3. -/
theorem open_phase_count_dynamic_witness :
    open_phases C6db C2step = 2 ∧ open_phases C2db C2step = 3 :=
  ⟨(open_phase_count_dynamic C6db C2step).1 (by decide),
   (open_phase_count_dynamic C2db C2step).2.1 (by decide)⟩

/-- C5, counterexample. With point value 10, correct set `{0, 1, 2}` and a
participant selecting the single correct index 0, `add_multi_points`
awards `int(10 / 3 * 1) = 3`, not the claim's exact share
`10 / 3 × 1`: each award is truncated to an integer. -/
theorem multi_exact_share_cex :
    userScore (add_multi_points (multiDB 10 [0, 1, 2] [0]) (multiStep 10 [0, 1, 2]))
      "u" = some 3 ∧
    ¬ ((3 : ℚ) = (10 : ℚ) / (3 : ℚ) * (1 : ℚ)) := by
  constructor
  · decide
  · norm_num

/-- C5, amended: a participant whose selected set is a non-empty subset of
the configured correct set earns the integer truncation of
`points_correct × |selected| / |correct|` (the float
`int(share × |selected|)` of the source, in exact arithmetic); any
selection outside the correct set, or an empty selection, earns 0. -/
theorem multi_scoring_truncated_share (pts : Int) (correct chosen : List Nat) :
    userScore (add_multi_points (multiDB pts correct chosen) (multiStep pts correct))
      "u" =
    some (if chosen.toFinset ≠ ∅ ∧ chosen.toFinset ⊆ correct.toFinset then
            (pts * (chosen.toFinset.card : Int)).tdiv (correct.toFinset.card : Int)
          else 0) := by
  by_cases hc : correct.toFinset = ∅
  · have hno : ¬(chosen.toFinset ≠ ∅ ∧ chosen.toFinset ⊆ correct.toFinset) := by
      rintro ⟨hne, hsub⟩
      rw [hc] at hsub
      exact hne (Finset.subset_empty.mp hsub)
    simp [add_multi_points, multiDB, multiStep, userScore, mkUser, hc, hno]
  · simp [add_multi_points, multiDB, multiStep, userScore, mkUser, multiAward, hc]

/-- C7. Retreating from phase 0 of a step that has a predecessor moves to
the step at the previous order position and sets the phase to that step's
last phase, obtained from a live `total_phases` call on the predecessor's
current data — for an open predecessor that is phase 2 when it has
submissions and phase 1 when it has none. -/
theorem retreat_reconstructs_last_phase (db : DB) (now : Int) (s s1 : Step)
    (hs : findStepById db db.gs.current_step_id = some s)
    (hp : db.gs.phase = 0)
    (ht : findStepByOrder db (s.order_index - 1) = some s1)
    (hr : registeredTypes.contains s1.type = true) :
    advance db false now =
      some { db with gs := { current_step_id := s1.id, step_started_at := now,
                             phase_started_at := now,
                             phase := stepTotalPhases db s1 - 1 } } ∧
    (s1.type = "open" →
      (db.ideas.filter (fun i => i.step_id == s1.id) = [] →
        stepTotalPhases db s1 - 1 = 1) ∧
      (db.ideas.filter (fun i => i.step_id == s1.id) ≠ [] →
        stepTotalPhases db s1 - 1 = 2)) := by
  constructor
  · simp only [advance, hs, hp, move_to_block, ht, hr]
    simp [Nat.zero_max]
  · intro ho
    refine ⟨fun h => ?_, fun h => ?_⟩
    · simp [stepTotalPhases, ho, open_phases, h]
    · have hlen : ¬(db.ideas.filter (fun i => i.step_id == s1.id)).length = 0 :=
        fun hl => h (List.length_eq_zero.mp hl)
      simp only [stepTotalPhases, ho, open_phases, bne_iff_ne, ne_eq]
      rw [if_pos hlen]

/-- Witness for `retreat_reconstructs_last_phase`: retreating from phase 0
of the quiz step lands on the open step (which has one submission) at
phase 2. -/
theorem retreat_reconstructs_last_phase_witness :
    (advance C7db false 77).map (fun d => (d.gs.current_step_id, d.gs.phase)) =
      some (2, 2) := by
  have h := retreat_reconstructs_last_phase C7db 77 C7quiz C7open
    (by decide) (by decide) (by decide) (by decide)
  rw [h.1]
  decide

/-- C8. Each scoring function is a no-op leaving the whole store — scores
included — untouched when its parameters are unconfigured: the
single-choice scorer without a point value or correct index, the
multi-choice scorer without a stored correct set or point value (or with a
correct set that parses to no index), the ordering scorer without a point
value. The functions are total, so the no-op never raises. -/
theorem missing_scoring_params_noop (db : DB) (step : Step) :
    (step.points_correct = none ∨ step.correct_index = none →
      add_mcq_points db step = db) ∧
    (step.correct_multi = none ∨ step.points_correct = none →
      add_multi_points db step = db) ∧
    (∀ l, step.correct_multi = some l → l.toFinset = ∅ →
      add_multi_points db step = db) ∧
    (step.points_correct = none → add_sequence_points db step = db) := by
  refine ⟨?_, ?_, ?_, ?_⟩
  · rintro (h | h) <;> cases hp : step.points_correct <;>
      cases hc : step.correct_index <;> simp_all [add_mcq_points]
  · rintro (h | h) <;> cases hm : step.correct_multi <;>
      cases hp : step.points_correct <;> simp_all [add_multi_points]
  · intro l hl he
    cases hp : step.points_correct <;> simp [add_multi_points, hl, hp, he]
  · intro h
    simp [add_sequence_points, h]

/-- Witness for `missing_scoring_params_noop`: advancing-time scoring of a
step with no configured parameters changes nothing, and a correct set
parsing to no index is likewise inert. -/
theorem missing_scoring_params_noop_witness :
    add_mcq_points C2db C2step = C2db ∧
    add_multi_points C2db C2step = C2db ∧
    add_sequence_points C2db C2step = C2db ∧
    add_multi_points (multiDB 5 [] [0]) (multiStep 5 []) = multiDB 5 [] [0] :=
  ⟨(missing_scoring_params_noop C2db C2step).1 (Or.inl rfl),
   (missing_scoring_params_noop C2db C2step).2.1 (Or.inl rfl),
   (missing_scoring_params_noop C2db C2step).2.2.2 rfl,
   (missing_scoring_params_noop (multiDB 5 [] [0]) (multiStep 5 [])).2.2.1 []
     rfl (by decide)⟩

/-- Evicting the dead connections one by one keeps exactly the members not
in the dead list. -/
theorem foldl_disconnect_mem (ws : List Nat) (h : Hub) (c : Nat) :
    c ∈ (ws.foldl (fun hub w => hub.disconnect w) h).active ↔
      c ∈ h.active ∧ c ∉ ws := by
  induction ws generalizing h with
  | nil => simp
  | cons w ws ih =>
      rw [List.foldl_cons, ih]
      simp only [Hub.disconnect, List.mem_filter, List.mem_cons, bne_iff_ne, ne_eq]
      tauto

/-- C9. A broadcast delivers the payload to every subscribed connection
whose send does not fail, never raises to its caller (it is a total
function of the hub and the failure set), and the hub afterwards holds
exactly the connections that did not fail. -/
theorem display_broadcast_isolates_failures {α : Type} (h : Hub)
    (sendFails : Nat → Bool) (payload : α) :
    (∀ c, c ∈ h.active → sendFails c = false →
      (c, payload) ∈ (h.broadcast sendFails payload).1) ∧
    (∀ c, c ∈ (h.broadcast sendFails payload).2.active ↔
      c ∈ h.active ∧ sendFails c = false) := by
  constructor
  · intro c hc hf
    refine List.mem_map.mpr ⟨c, ?_, rfl⟩
    simp [List.mem_filter, hc, hf]
  · intro c
    simp only [Hub.broadcast, foldl_disconnect_mem, List.mem_filter]
    cases hf : sendFails c <;> simp [hf]

/-- Witness for `display_broadcast_isolates_failures`: with subscribers
`{1, 2, 3}` and connection 2 failing, connection 1 still receives the
payload and connection 2 is evicted. -/
theorem display_broadcast_isolates_failures_witness :
    ((1, "st") ∈ ((⟨[1, 2, 3]⟩ : Hub).broadcast (fun c => c == 2) "st").1) ∧
    ¬ (2 ∈ ((⟨[1, 2, 3]⟩ : Hub).broadcast (fun c => c == 2) "st").2.active) := by
  have h := display_broadcast_isolates_failures (⟨[1, 2, 3]⟩ : Hub)
    (fun c => c == 2) "st"
  refine ⟨h.1 1 (by decide) (by decide), fun hm => ?_⟩
  exact absurd ((h.2 2).mp hm).2 (by decide)

/-- C10. Submitting the single-choice index already recorded for the
current step during the answer phase changes no persistent state at all —
the store (answer rows, timestamps, counters, scores) is returned as it
was — and only the "answer unchanged" acknowledgement is sent. -/
theorem repeat_choice_is_noop (db : DB) (uid : String) (step : Step)
    (c now : Int) (a : McqAnswer) (h0 : db.gs.phase = 0)
    (ha : findMcqAnswer db step.id uid = some a) (hc : a.choice_idx = c) :
    quiz_on_callback db uid step c now = (db, QuizReply.answerUnchanged) := by
  simp [quiz_on_callback, h0, ha, hc]

/-- Witness for `repeat_choice_is_noop`: participant `"u"` re-sends the
recorded choice 1 and the state is exactly the one before. -/
theorem repeat_choice_is_noop_witness :
    quiz_on_callback (C1db 10) "u" (C1step 10) 1 500 =
      (C1db 10, QuizReply.answerUnchanged) :=
  repeat_choice_is_noop (C1db 10) "u" (C1step 10) 1 500
    { step_id := 1, user_id := "u", choice_idx := 1, answered_at := 50 }
    (by decide) (by decide) (by decide)

/-- The keyed overwrite rewrites exactly the row the lookup finds. -/
theorem updateMcqRow_find? (stepId : Nat) (uid : String) (c t : Int)
    (l : List McqAnswer) :
    (updateMcqRow stepId uid c t l).find? (mcqKey stepId uid) =
      (l.find? (mcqKey stepId uid)).map
        (fun r => { r with choice_idx := c, answered_at := t }) := by
  induction l with
  | nil => rfl
  | cons a l ih =>
      cases hk : mcqKey stepId uid a
      · simpa [updateMcqRow, List.find?_cons, hk] using ih
      · have hk2 : mcqKey stepId uid
            ({ a with choice_idx := c, answered_at := t } : McqAnswer) = true := hk
        simp [updateMcqRow, List.find?_cons, hk, hk2]

/-- The keyed overwrite keeps the number of rows matching the key. -/
theorem updateMcqRow_count (stepId : Nat) (uid : String) (c t : Int)
    (l : List McqAnswer) :
    ((updateMcqRow stepId uid c t l).filter (mcqKey stepId uid)).length =
      (l.filter (mcqKey stepId uid)).length := by
  induction l with
  | nil => rfl
  | cons a l ih =>
      cases hk : mcqKey stepId uid a
      · simpa [updateMcqRow, List.filter_cons, hk] using ih
      · have hk2 : mcqKey stepId uid
            ({ a with choice_idx := c, answered_at := t } : McqAnswer) = true := hk
        simpa [updateMcqRow, List.filter_cons, hk, hk2] using ih

/-- The latency mutation rewrites exactly the user the lookup finds. -/
theorem updateUserLatency_find? (uid : String) (d : Int) (k : Nat) (l : List User) :
    (updateUserLatency uid d k l).find? (userKey uid) =
      (l.find? (userKey uid)).map (fun u =>
        { u with total_answer_ms := u.total_answer_ms + d,
                 quiz_answer_ms := u.quiz_answer_ms + d,
                 quiz_answer_count := u.quiz_answer_count + k }) := by
  induction l with
  | nil => rfl
  | cons a l ih =>
      cases hk : userKey uid a
      · simpa [updateUserLatency, List.find?_cons, hk] using ih
      · have hk2 : userKey uid
            ({ a with total_answer_ms := a.total_answer_ms + d,
                      quiz_answer_ms := a.quiz_answer_ms + d,
                      quiz_answer_count := a.quiz_answer_count + k } : User) = true := hk
        simp [updateUserLatency, List.find?_cons, hk, hk2]

/-- Editing an already-recorded answer over and over: every
`quiz_on_callback` edit of an existing row keeps the global state, keeps
the row count, rewrites the single row in place, and shifts both latency
counters so that they track the latest submission time. -/
theorem quizSeq_edit_invariant (uid : String) (step : Step)
    (edits : List (Int × Int)) :
    ∀ (db : DB) (c t : Int),
    db.gs.phase = 0 →
    findMcqAnswer db step.id uid =
      some { step_id := step.id, user_id := uid, choice_idx := c, answered_at := t } →
    (∀ e ∈ edits, db.gs.step_started_at ≤ e.2) →
    List.Chain' (fun a b => b.1 ≠ a.1) ((c, t) :: edits) →
    (quizSubmitSeq db uid step edits).gs = db.gs ∧
    findMcqAnswer (quizSubmitSeq db uid step edits) step.id uid =
      some { step_id := step.id, user_id := uid,
             choice_idx := (edits.getLastD (c, t)).1,
             answered_at := (edits.getLastD (c, t)).2 } ∧
    mcqCount (quizSubmitSeq db uid step edits) step.id uid =
      mcqCount db step.id uid ∧
    userMs (quizSubmitSeq db uid step edits) uid =
      (userMs db uid).map (fun p =>
        (p.1 + ((edits.getLastD (c, t)).2 - t),
         p.2 + ((edits.getLastD (c, t)).2 - t))) := by
  induction edits with
  | nil =>
      intro db c t h0 hfind htimes hchain
      refine ⟨rfl, by simpa [quizSubmitSeq] using hfind, rfl, ?_⟩
      cases hms : userMs db uid <;> simp [quizSubmitSeq, hms]
  | cons e rest ih =>
      obtain ⟨c1, t1⟩ := e
      intro db c t h0 hfind htimes hchain
      obtain ⟨hne, hchain1⟩ := List.chain'_cons.mp hchain
      have ht1 : db.gs.step_started_at ≤ t1 := htimes (c1, t1) (by simp)
      have hbeq : (c == c1) = false :=
        beq_eq_false_iff_ne.mpr (fun h => hne h.symm)
      have hstep : quiz_on_callback db uid step c1 t1 =
          ({ db with
              mcq_answers := updateMcqRow step.id uid c1 t1 db.mcq_answers,
              users := updateUserLatency uid
                (max 0 (t1 - db.gs.step_started_at) -
                  (t - db.gs.step_started_at)) 0 db.users },
           QuizReply.answerSaved) := by
        simp [quiz_on_callback, h0, hfind, hbeq]
      have hseq : quizSubmitSeq db uid step ((c1, t1) :: rest) =
          quizSubmitSeq (quiz_on_callback db uid step c1 t1).1 uid step rest := rfl
      set db1 : DB :=
        { db with
            mcq_answers := updateMcqRow step.id uid c1 t1 db.mcq_answers,
            users := updateUserLatency uid
              (max 0 (t1 - db.gs.step_started_at) -
                (t - db.gs.step_started_at)) 0 db.users } with hdb1
      have hgs1 : db1.gs = db.gs := rfl
      have hfind1 : findMcqAnswer db1 step.id uid =
          some { step_id := step.id, user_id := uid, choice_idx := c1,
                 answered_at := t1 } := by
        show (updateMcqRow step.id uid c1 t1 db.mcq_answers).find?
          (mcqKey step.id uid) = _
        rw [updateMcqRow_find?]
        rw [show db.mcq_answers.find? (mcqKey step.id uid) =
          some { step_id := step.id, user_id := uid, choice_idx := c,
                 answered_at := t } from hfind]
        rfl
      have htimes1 : ∀ e ∈ rest, db1.gs.step_started_at ≤ e.2 :=
        fun e he => htimes e (List.mem_cons_of_mem _ he)
      obtain ⟨g1, f1, n1, m1⟩ := ih db1 c1 t1 h0 hfind1 htimes1 hchain1
      have hmax : max 0 (t1 - db.gs.step_started_at) = t1 - db.gs.step_started_at :=
        max_eq_right (sub_nonneg.mpr ht1)
      have hms1 : userMs db1 uid = (userMs db uid).map (fun p =>
          (p.1 + (t1 - t), p.2 + (t1 - t))) := by
        simp only [hdb1, userMs, updateUserLatency_find?]
        cases hu : db.users.find? (userKey uid) <;> simp [hu, hmax]
      have hcnt1 : mcqCount db1 step.id uid = mcqCount db step.id uid :=
        updateMcqRow_count step.id uid c1 t1 db.mcq_answers
      have hfold : quizSubmitSeq db uid step ((c1, t1) :: rest) =
          quizSubmitSeq db1 uid step rest := by
        rw [hseq, hstep]
      refine ⟨?_, ?_, ?_, ?_⟩
      · rw [hfold, g1]
      · rw [hfold, f1, List.getLastD_cons]
      · rw [hfold, n1, hcnt1]
      · rw [hfold, m1, hms1, List.getLastD_cons]
        cases hu : userMs db uid <;> simp [hu]
        ring_nf
        simp

/-- C6. Re-submitting a single-choice answer replaces the one record in
place — after any number of effective edits exactly one `(step,
participant)` row exists, holding the last choice and timestamp — and the
participant's cumulative latency counters equal their initial value plus
only the latest submission's delay relative to step start: each edit
subtracts the previous contribution before adding the new one. -/
theorem resubmission_replaces_and_retimes (db : DB) (uid : String) (step : Step)
    (e0 : Int × Int) (rest : List (Int × Int))
    (h0 : db.gs.phase = 0)
    (hnone : findMcqAnswer db step.id uid = none)
    (htimes : ∀ e ∈ e0 :: rest, db.gs.step_started_at ≤ e.2)
    (hchain : List.Chain' (fun a b => b.1 ≠ a.1) (e0 :: rest)) :
    mcqCount (quizSubmitSeq db uid step (e0 :: rest)) step.id uid = 1 ∧
    findMcqAnswer (quizSubmitSeq db uid step (e0 :: rest)) step.id uid =
      some { step_id := step.id, user_id := uid,
             choice_idx := (rest.getLastD e0).1,
             answered_at := (rest.getLastD e0).2 } ∧
    userMs (quizSubmitSeq db uid step (e0 :: rest)) uid =
      (userMs db uid).map (fun p =>
        (p.1 + ((rest.getLastD e0).2 - db.gs.step_started_at),
         p.2 + ((rest.getLastD e0).2 - db.gs.step_started_at))) := by
  obtain ⟨c0, t0⟩ := e0
  have ht0 : db.gs.step_started_at ≤ t0 := htimes (c0, t0) (by simp)
  have hstep : quiz_on_callback db uid step c0 t0 =
      ({ db with
          mcq_answers := db.mcq_answers ++
            [{ step_id := step.id, user_id := uid, choice_idx := c0,
               answered_at := t0 }],
          users := updateUserLatency uid
            (max 0 (t0 - db.gs.step_started_at)) 1 db.users },
       QuizReply.answerSaved) := by
    simp [quiz_on_callback, h0, hnone]
  set db1 : DB :=
    { db with
        mcq_answers := db.mcq_answers ++
          [{ step_id := step.id, user_id := uid, choice_idx := c0,
             answered_at := t0 }],
        users := updateUserLatency uid
          (max 0 (t0 - db.gs.step_started_at)) 1 db.users } with hdb1
  have hkey : mcqKey step.id uid
      ({ step_id := step.id, user_id := uid, choice_idx := c0,
         answered_at := t0 } : McqAnswer) = true := by
    simp [mcqKey]
  have hfilter : db.mcq_answers.filter (mcqKey step.id uid) = [] :=
    List.filter_eq_nil_iff.mpr (fun a ha hp =>
      (List.find?_eq_none.mp hnone a ha) hp)
  have hfind1 : findMcqAnswer db1 step.id uid =
      some { step_id := step.id, user_id := uid, choice_idx := c0,
             answered_at := t0 } := by
    show (db.mcq_answers ++ _).find? (mcqKey step.id uid) = _
    rw [List.find?_append, show db.mcq_answers.find? (mcqKey step.id uid) =
      none from hnone, Option.none_or, List.find?_cons, hkey]
  have hcnt1 : mcqCount db1 step.id uid = 1 := by
    show ((db.mcq_answers ++ _).filter (mcqKey step.id uid)).length = 1
    rw [List.filter_append, hfilter]
    simp [hkey]
  have hmax : max 0 (t0 - db.gs.step_started_at) = t0 - db.gs.step_started_at :=
    max_eq_right (sub_nonneg.mpr ht0)
  have hms1 : userMs db1 uid = (userMs db uid).map (fun p =>
      (p.1 + (t0 - db.gs.step_started_at), p.2 + (t0 - db.gs.step_started_at))) := by
    simp only [hdb1, userMs, updateUserLatency_find?]
    cases hu : db.users.find? (userKey uid) <;> simp [hu, hmax]
  have htimes1 : ∀ e ∈ rest, db1.gs.step_started_at ≤ e.2 :=
    fun e he => htimes e (List.mem_cons_of_mem _ he)
  obtain ⟨g1, f1, n1, m1⟩ :=
    quizSeq_edit_invariant uid step rest db1 c0 t0 h0 hfind1 htimes1 hchain
  have hseq : quizSubmitSeq db uid step ((c0, t0) :: rest) =
      quizSubmitSeq (quiz_on_callback db uid step c0 t0).1 uid step rest := rfl
  have hfold : quizSubmitSeq db uid step ((c0, t0) :: rest) =
      quizSubmitSeq db1 uid step rest := by
    rw [hseq, hstep]
  refine ⟨by rw [hfold, n1, hcnt1], by rw [hfold, f1], ?_⟩
  rw [hfold, m1, hms1]
  cases hu : userMs db uid <;> simp [hu]
  ring_nf
  simp

/-- Witness for `resubmission_replaces_and_retimes`: participant `"u"`
submits choice 1 at time 150, then edits to choice 2 at time 300 (step
started at 100): one record remains, holding `(2, 300)`, and both latency
counters hold exactly `300 - 100 = 200`. -/
theorem resubmission_replaces_and_retimes_witness :
    mcqCount (quizSubmitSeq C6db "u" (C1step 10) [(1, 150), (2, 300)]) 1 "u" = 1 ∧
    userMs (quizSubmitSeq C6db "u" (C1step 10) [(1, 150), (2, 300)]) "u" =
      some (200, 200) := by
  have h := resubmission_replaces_and_retimes C6db "u" (C1step 10) (1, 150)
    [(2, 300)] (by decide) (by decide) (by decide)
    (List.chain'_cons.mpr ⟨by decide, List.chain'_singleton _⟩)
  refine ⟨h.1, ?_⟩
  rw [h.2.2]
  decide

end TrizQuiz
